import Mathlib

/-!
Shallow embedding of the orchestrator backend request-dispatch pipeline
(`OrchestratorPlugin.ts`): the permission gate (`authorize`,
`filterAuthorizedWorkflowIds`, `filterAuthorizedWorkflows`), the audit
helpers (`manageDenyAuthorization`, `auditLogRequestError`), and the
route handlers that the claims cite.

Effectful TypeScript code is embedded in a writer-plus-exception monad
`M`: a computation yields an `Except Err` result together with the list
of observable events it performed (permission-service calls, audit-log
writes, data fetches, engine calls, HTTP responses, `next(error)`
forwarding), in order.  A thrown JS exception is `Except.error`; events
already performed are retained, as in the real system where audit writes
and service calls are side effects that an exception does not undo.
External collaborators (the permission service, the v2 api / orchestrator
service) are an environment `Env` of fallible functions, as the source
receives them by dependency injection.
-/

namespace Orchestrator

/-- Outcome of a permission evaluation. For the `BasicPermission` requests
issued by this plugin the Backstage permission service returns a definitive
decision, so the embedded `AuthorizeResult` has the two definitive values
the source compares against. -/
inductive AuthorizeResult where
  | ALLOW
  | DENY
deriving DecidableEq, Repr

/-- An `AuthorizePermissionResponse` for a basic permission: just the result. -/
structure Decision where
  result : AuthorizeResult
deriving DecidableEq, Repr

/-- The orchestrator permissions used by the embedded code:
`orchestratorWorkflowPermission` (generic read),
`orchestratorWorkflowSpecificPermission(id)`, `orchestratorWorkflowUsePermission`
(generic use) and `orchestratorWorkflowUseSpecificPermission(id)`. -/
inductive Permission where
  | workflow
  | workflowSpecific (workflowId : String)
  | workflowUse
  | workflowUseSpecific (workflowId : String)
deriving DecidableEq, Repr

/-- Credentials resolved by `httpAuth.credentials(request)`; opaque to the
embedded code. -/
structure Credentials where
  principal : String
deriving DecidableEq, Repr

/-- Errors: `unauthorized` is the `UnauthorizedError` thrown on DENY;
`typeError` is a JS runtime `TypeError` (property access on `undefined`,
e.g. `decisions[idx].result` when the service returned too few decisions);
`generic` is a thrown `new Error(message)`; `upstream` is a failure coming
from a collaborator (permission service, data index, engine). -/
inductive Err where
  | unauthorized
  | typeError (msg : String)
  | generic (msg : String)
  | upstream (msg : String)
deriving DecidableEq, Repr

/-- One record passed to `auditLogger.auditLog`. `responseStatus` is the
`response.status` field of the event when the source includes one. -/
structure AuditEvent where
  eventName : String
  stage : String
  status : String
  level : String
  message : String
  responseStatus : Option Nat := none
  errors : List Err := []
deriving DecidableEq, Repr

/-- Abstract JSON value for instance variables / schema properties: only
JS truthiness of such a value is ever inspected by the embedded code
(`if (!workflowData[k])`); the payload tag keeps distinct values distinct. -/
structure JsonVal where
  truthy : Bool
  payload : Nat
deriving DecidableEq, Repr

/-- A JSON object as an association list. -/
abbrev JsonObject := List (String × JsonVal)

/-- The part of a `ProcessInstance` the embedded handlers read. -/
structure ProcessInstance where
  id : String
  processId : String
deriving DecidableEq, Repr

/-- An `AssessedProcessInstanceDTO`; the source field `instance` is named
`inst` because `instance` is reserved in Lean. -/
structure AssessedProcessInstanceDTO where
  inst : ProcessInstance
deriving DecidableEq, Repr

/-- The `properties` of a workflow input schema. -/
structure InputSchema where
  properties : Option JsonObject := none
deriving DecidableEq, Repr

/-- A `WorkflowInfo` as returned by `fetchWorkflowInfo` and by
`v2.getWorkflowInputSchemaById`. -/
structure WorkflowInfo where
  serviceUrl : Option String := none
  inputSchema : Option InputSchema := none
deriving DecidableEq, Repr

/-- The part of a `WorkflowDefinition` the handlers read: presence of
`dataInputSchema` (modelled as the reference it holds). -/
structure WorkflowDefinition where
  dataInputSchema : Option String := none
deriving DecidableEq, Repr

/-- A response body as produced by the handlers under verification. -/
inductive ResBody where
  | emptyObj
  | jsonInstance (i : AssessedProcessInstanceDTO)
  | jsonStatuses (s : List String)
  | jsonAbortResult (s : String)
  | textSource (s : String)
  | jsonSchema (schema : InputSchema) (data : Option JsonObject)
  | jsonMessage (msg : String)
deriving DecidableEq, Repr

/-- Observable events of a request, in program order. -/
inductive Event where
  | permCall (reqs : List Permission)
  | audit (e : AuditEvent)
  | getInstanceByIdCall (instanceId : String) (includeAssessment : Bool)
  | abortCall (workflowId instanceId : String)
  | getWorkflowStatusesCall
  | fetchWorkflowInfoCall (workflowId : String)
  | fetchWorkflowDefinitionCall (workflowId : String)
  | fetchInstanceVariablesCall (instanceId : String)
  | getWorkflowInputSchemaCall (workflowId serviceUrl : String)
  | getWorkflowSourceCall (workflowId : String)
  | respond (status : Nat) (body : ResBody)
  | nextError (e : Err)
deriving DecidableEq, Repr

abbrev Trace := List Event

/-- A computation: an `Except` result plus the events it performed. -/
structure M (α : Type) where
  res : Except Err α
  trace : Trace

def pureM (a : α) : M α := ⟨.ok a, []⟩

def bindM (x : M α) (f : α → M β) : M β :=
  match x.res with
  | .error e => ⟨.error e, x.trace⟩
  | .ok a => ⟨(f a).res, x.trace ++ (f a).trace⟩

instance : Monad M where
  pure := pureM
  bind := bindM

/-- Perform an audit-log write (or any other event). -/
def logM (e : Event) : M Unit := ⟨.ok (), [e]⟩

/-- Lift a pure fallible value with no observable event. -/
def liftE (x : Except Err α) : M α := ⟨x, []⟩

/-- Throw a JS exception. -/
def throwM (e : Err) : M α := ⟨.error e, []⟩

/-- Call a collaborator: the call event is observable whether or not the
call succeeds. -/
def callE (ev : Event) (x : Except Err α) : M α := ⟨x, [ev]⟩

/-- A TS try/catch block. -/
def tryCatchM (x : M α) (h : Err → M α) : M α :=
  match x.res with
  | .ok a => ⟨.ok a, x.trace⟩
  | .error e => ⟨(h e).res, x.trace ++ (h e).trace⟩

/-- Sequence a list of computations, collecting the results: the embedding
of `Promise.all(xs.map f)` (call order among independent requests is not
observable to the claims; each call and its result are). -/
def mapML (f : α → M β) : List α → M (List β)
  | [] => pureM []
  | a :: as =>
    bindM (f a) fun b => bindM (mapML f as) fun bs => pureM (b :: bs)

/-- External collaborators as injected into `setupInternalRoutes`. -/
structure Env where
  credentials : Except Err Credentials
  permAuthorize : List Permission → Credentials → Except Err (List Decision)
  v2GetInstanceById : String → Bool → Except Err AssessedProcessInstanceDTO
  v2AbortWorkflow : String → String → Except Err String
  v2GetWorkflowStatuses : Except Err (List String)
  v2GetWorkflowSourceById : String → Except Err String
  v2GetWorkflowInputSchemaById : String → String → Except Err WorkflowInfo
  fetchWorkflowInfo : String → Except Err (Option WorkflowInfo)
  fetchWorkflowDefinition : String → Except Err (Option WorkflowDefinition)
  fetchInstanceVariables : String → Except Err (Option JsonObject)
  extractWorkflowData : JsonObject → Option JsonObject

/-- Index a decision list at 0, as the JS `d[0]` followed by a read of
`.result`: an out-of-range index yields `undefined` and the read throws. -/
def head0 (l : List Decision) : Except Err Decision :=
  match l with
  | [] => .error (.typeError "cannot read result of undefined")
  | d :: _ => .ok d

/-- Issue one call to `permissionsSvc.authorize(reqs, { credentials })`. -/
def permCallM (env : Env) (reqs : List Permission) (credentials : Credentials) :
    M (List Decision) :=
  callE (Event.permCall reqs) (env.permAuthorize reqs credentials)

/-- Embed the JS `decisions.find(d => d.result === AuthorizeResult.ALLOW)`
where each entry is `decisionResponses[i][0]` and thus possibly
`undefined` (`none`): visiting an `undefined` entry reads `.result` of
`undefined` and throws; otherwise the first ALLOW entry is returned. -/
def findAllowJS : List (Option Decision) → Except Err (Option Decision)
  | [] => .ok none
  | none :: _ => .error (.typeError "cannot read result of undefined")
  | some d :: rest =>
    if d.result == AuthorizeResult.ALLOW then .ok (some d) else findAllowJS rest

/-- The permission gate `authorize` (OrchestratorPlugin.ts lines 154-179):
resolves credentials, evaluates every candidate permission in an
independent single-permission service call, takes the head of each
response, and returns the first ALLOW decision, defaulting to
`{ result: DENY }`. -/
def authorize (env : Env) (anyOfPermissions : List Permission) : M Decision := do
  let credentials ← liftE env.credentials
  let decisionResponses ← mapML (fun p => permCallM env [p] credentials) anyOfPermissions
  let decisions := decisionResponses.map List.head?
  let allow ← liftE (findAllowJS decisions)
  match allow with
  | some d => pure d
  | none => pure { result := AuthorizeResult.DENY }

/-- The JS `workflowIds.filter((_, idx) => decisions[idx].result === ALLOW)`:
reading `decisions[idx]` past the end of `decisions` yields `undefined` and
the `.result` access throws. -/
def filterByDecisions : List String → List Decision → Except Err (List String)
  | [], _ => .ok []
  | _ :: _, [] => .error (.typeError "cannot read result of undefined")
  | id :: ids, d :: ds =>
    match filterByDecisions ids ds with
    | .error e => .error e
    | .ok rest =>
      .ok (if d.result == AuthorizeResult.ALLOW then id :: rest else rest)

/-- The gate `filterAuthorizedWorkflowIds` (lines 181-212): evaluates the
generic workflow permission first; on ALLOW returns all ids untouched;
otherwise issues one batched call with a specific permission request per id
and keeps the ids whose decision is ALLOW. -/
def filterAuthorizedWorkflowIds (env : Env) (workflowIds : List String) :
    M (List String) := do
  let credentials ← liftE env.credentials
  let genericWorkflowPermissionDecision ←
    permCallM env [Permission.workflow] credentials
  let d0 ← liftE (head0 genericWorkflowPermissionDecision)
  if d0.result == AuthorizeResult.ALLOW then
    -- The user can see all workflows
    pure workflowIds
  else
    let specificWorkflowRequests :=
      workflowIds.map (fun workflowId => Permission.workflowSpecific workflowId)
    let decisions ← permCallM env specificWorkflowRequests credentials
    liftE (filterByDecisions workflowIds decisions)

/-- One entry of a `WorkflowOverviewListResultDTO.overviews`. -/
structure WorkflowOverviewDTO where
  workflowId : String
  name : Option String := none
deriving DecidableEq, Repr

/-- A `WorkflowOverviewListResultDTO`: the overviews (absent when the
engine returned none) plus pagination fields untouched by the filter. -/
structure WorkflowOverviewListResultDTO where
  overviews : Option (List WorkflowOverviewDTO) := none
  paginationInfoOffset : Option Nat := none
  paginationInfoPageSize : Option Nat := none
  paginationInfoTotalCount : Option Nat := none
deriving DecidableEq, Repr

/-- The gate `filterAuthorizedWorkflows` (lines 214-239): absent overviews
short-circuit; otherwise the overview list is filtered by membership of the
workflow id in the authorized id list. -/
def filterAuthorizedWorkflows (env : Env)
    (workflows : WorkflowOverviewListResultDTO) :
    M WorkflowOverviewListResultDTO := do
  match workflows.overviews with
  | none => pure workflows
  | some overviews =>
    let authorizedWorkflowIds ←
      filterAuthorizedWorkflowIds env (overviews.map (fun w => w.workflowId))
    pure { workflows with
           overviews := some (overviews.filter
             (fun w => authorizedWorkflowIds.contains w.workflowId)) }

/-- The audit record `manageDenyAuthorization` writes for a denial: event
name suffixed `EndpointHit`, stage `authorization`, status `failed`, level
`error`, a 403 response body carrying the `UnauthorizedError`. -/
def denyAudit (endpointName endpoint : String) : AuditEvent :=
  { eventName := endpointName ++ "EndpointHit"
    stage := "authorization"
    status := "failed"
    level := "error"
    responseStatus := some 403
    errors := [Err.unauthorized]
    message := "Not authorize to request the " ++ endpoint ++ " endpoint" }

/-- The helper `manageDenyAuthorization` (lines 398-425): writes the failed
audit event for the denial and then throws the `UnauthorizedError`. -/
def manageDenyAuthorization (endpointName endpoint : String) : M α := do
  logM (Event.audit (denyAudit endpointName endpoint))
  throwM Err.unauthorized

/-- The audit record `auditLogRequestError` writes: stage `completion`,
status `failed`, level `error`, a 500 response body carrying the error. -/
def requestErrorAudit (error : Err) (endpointName endpoint : String) :
    AuditEvent :=
  { eventName := endpointName ++ "EndpointHit"
    stage := "completion"
    status := "failed"
    level := "error"
    responseStatus := some 500
    errors := [error]
    message := "Error occured while requesting the " ++ endpoint ++ " endpoint" }

/-- The helper `auditLogRequestError` (lines 427-456): writes a failed
completion audit event for an error thrown while serving an endpoint.
The additional `logger.error` diagnostic line is not an audit event and is
not modelled. -/
def auditLogRequestError (error : Err) (endpointName endpoint : String) :
    M Unit :=
  logM (Event.audit (requestErrorAudit error endpointName endpoint))

/-- The start audit event every registered handler emits first
(stage `start`, status `succeeded`, level `debug`). -/
def startAudit (eventName endpoint : String) : AuditEvent :=
  { eventName := eventName
    stage := "start"
    status := "succeeded"
    level := "debug"
    message := "Received request to " ++ endpoint ++ " endpoint" }

/-- Write the start audit event. -/
def logStart (eventName endpoint : String) : M Unit :=
  logM (Event.audit (startAudit eventName endpoint))

/-- JS truthiness of an optional query-parameter string: `undefined` and
the empty string are falsy. -/
def truthy (q : Option String) : Bool :=
  match q with
  | none => false
  | some s => s != ""

/-- The `getWorkflowSourceById` handler (lines 495-532): start audit, then
the any-of permission check outside any try block (a DENY throws via
`manageDenyAuthorization`, uncaught here), then the v2 fetch inside a
promise chain whose catch audits a failed completion and forwards the
error to `next`. -/
def getWorkflowSourceByIdHandler (env : Env) (workflowId : String) : M Unit := do
  let endpointName := "getWorkflowSourceById"
  let endpoint := "/v2/workflows/" ++ workflowId ++ "/source"
  logStart endpointName endpoint
  let decision ← authorize env
    [Permission.workflow, Permission.workflowSpecific workflowId]
  if decision.result == AuthorizeResult.DENY then
    manageDenyAuthorization endpointName endpoint
  else
    pure ()
  tryCatchM
    (do
      let result ← callE (Event.getWorkflowSourceCall workflowId)
        (env.v2GetWorkflowSourceById workflowId)
      logM (Event.respond 200 (ResBody.textSource result)))
    (fun error => do
      auditLogRequestError error endpointName endpoint
      logM (Event.nextError error))

/-- The `getWorkflowStatuses` handler (lines 663-687): start audit, then —
as the source comments, anyone is authorized to call this endpoint — the
statuses fetch with no permission evaluation at all. -/
def getWorkflowStatusesHandler (env : Env) : M Unit := do
  let endpointName := "getWorkflowStatuses"
  let endpoint := "/v2/workflows/instances/statuses"
  logStart endpointName endpoint
  -- Anyone is authorized to call this endpoint
  tryCatchM
    (do
      let result ← callE Event.getWorkflowStatusesCall env.v2GetWorkflowStatuses
      logM (Event.respond 200 (ResBody.jsonStatuses result)))
    (fun error => do
      auditLogRequestError error endpointName endpoint
      logM (Event.nextError error))

/-- The `getInstanceById` handler (lines 894-942): start audit, then inside
the try block the instance is fetched first (to learn its owning
`processId`), only then the any-of permission check runs; a DENY throws
into the catch, which audits a failed completion and forwards the error;
on ALLOW the already-fetched instance is returned with status 200. -/
def getInstanceByIdHandler (env : Env) (instanceId : String)
    (includeAssessment : Option String) : M Unit := do
  let endpointName := "getInstanceById"
  let endpoint := "/v2/workflows/instances/" ++ instanceId
  logStart endpointName endpoint
  tryCatchM
    (do
      let assessedInstance ←
        callE (Event.getInstanceByIdCall instanceId (truthy includeAssessment))
          (env.v2GetInstanceById instanceId (truthy includeAssessment))
      let workflowId := assessedInstance.inst.processId
      let decision ← authorize env
        [Permission.workflow, Permission.workflowSpecific workflowId]
      if decision.result == AuthorizeResult.DENY then
        manageDenyAuthorization endpointName endpoint
      else
        pure ()
      logM (Event.respond 200 (ResBody.jsonInstance assessedInstance)))
    (fun error => do
      auditLogRequestError error endpointName endpoint
      logM (Event.nextError error))

/-- The `abortWorkflow` handler (lines 945-985): start audit, then inside
the try block the instance is fetched to resolve its owning workflow id,
then the any-of use-permission check; a DENY throws into the catch (failed
completion audit, error forwarded to `next`); on ALLOW the engine abort is
invoked and its result returned with status 200. -/
def abortWorkflowHandler (env : Env) (instanceId : String) : M Unit := do
  let endpointName := "abortWorkflow"
  let endpoint := "/v2/workflows/instances/" ++ instanceId ++ "/abort"
  logStart endpointName endpoint
  tryCatchM
    (do
      let assessedInstance ←
        callE (Event.getInstanceByIdCall instanceId false)
          (env.v2GetInstanceById instanceId false)
      let workflowId := assessedInstance.inst.processId
      let decision ← authorize env
        [Permission.workflowUse, Permission.workflowUseSpecific workflowId]
      if decision.result == AuthorizeResult.DENY then
        manageDenyAuthorization endpointName endpoint
      else
        pure ()
      let result ← callE (Event.abortCall workflowId instanceId)
        (env.v2AbortWorkflow workflowId instanceId)
      logM (Event.respond 200 (ResBody.jsonAbortResult result)))
    (fun error => do
      auditLogRequestError error endpointName endpoint
      logM (Event.nextError error))

/-- The `Object.keys(inputSchemaProps).filter(k => k in workflowData)
.reduce(...)` computation of lines 789-797: keep the schema keys present
in the workflow data whose value is truthy, pairing each with its value. -/
def buildInputData (inputSchemaProps workflowData : JsonObject) : JsonObject :=
  ((inputSchemaProps.map Prod.fst).filter
      (fun k => (workflowData.lookup k).isSome)).foldl
    (fun result k =>
      match workflowData.lookup k with
      | some v => if v.truthy then result ++ [(k, v)] else result
      | none => result)
    []

/-- The `getWorkflowInputSchemaById` handler (lines 690-809): inside one
try block — start audit, any-of permission check (DENY throws), fetch of
the workflow info (absence or absent service URL throws), fetch of the
definition (absence throws); a definition without `dataInputSchema`
responds 200 with the empty object and returns; otherwise instance
variables are fetched only for a truthy `instanceId` query parameter, the
v2 input-schema call runs with its own catch (failed completion audit and
a 500 response, after which the handler continues with an absent result),
and an absent info / input schema / properties responds 200 with the empty
object, else 200 with the schema and the filtered input data. -/
def getWorkflowInputSchemaByIdHandler (env : Env) (workflowId : String)
    (instanceId : Option String) : M Unit := do
  let endpointName := "getWorkflowInputSchemaById"
  let endpoint := "/v2/workflows/" ++ workflowId ++ "/inputSchema"
  tryCatchM
    (do
      logStart endpointName endpoint
      let decision ← authorize env
        [Permission.workflow, Permission.workflowSpecific workflowId]
      if decision.result == AuthorizeResult.DENY then
        manageDenyAuthorization endpointName endpoint
      else
        pure ()
      let workflowDefinition ← callE (Event.fetchWorkflowInfoCall workflowId)
        (env.fetchWorkflowInfo workflowId)
      let wdef ← match workflowDefinition with
        | none => throwM (Err.generic
            ("Failed to fetch workflow info for workflow " ++ workflowId))
        | some wdef => pure wdef
      let serviceUrl ← match wdef.serviceUrl with
        | none => throwM (Err.generic
            ("Service URL is not defined for workflow " ++ workflowId))
        | some u => pure u
      let definitionOpt ← callE (Event.fetchWorkflowDefinitionCall workflowId)
        (env.fetchWorkflowDefinition workflowId)
      let definition ← match definitionOpt with
        | none => throwM (Err.generic
            "Failed to fetch workflow definition for workflow")
        | some d => pure d
      if definition.dataInputSchema.isNone then
        logM (Event.respond 200 ResBody.emptyObj)
      else do
        let instanceVariables ←
          if truthy instanceId then
            callE (Event.fetchInstanceVariablesCall (instanceId.getD ""))
              (env.fetchInstanceVariables (instanceId.getD ""))
          else
            pure none
        let workflowData := match instanceVariables with
          | some vars => env.extractWorkflowData vars
          | none => none
        let workflowInfo ← tryCatchM
          (bindM
            (callE (Event.getWorkflowInputSchemaCall workflowId serviceUrl)
              (env.v2GetWorkflowInputSchemaById workflowId serviceUrl))
            (fun w => pureM (some w)))
          (fun error => do
            auditLogRequestError error endpointName endpoint
            logM (Event.respond 500 (ResBody.jsonMessage "internal error"))
            pure none)
        match workflowInfo with
        | none => logM (Event.respond 200 ResBody.emptyObj)
        | some info =>
          match info.inputSchema with
          | none => logM (Event.respond 200 ResBody.emptyObj)
          | some inputSchema =>
            match inputSchema.properties with
            | none => logM (Event.respond 200 ResBody.emptyObj)
            | some inputSchemaProps =>
              let inputData := match workflowData with
                | some wd => some (buildInputData inputSchemaProps wd)
                | none => none
              logM (Event.respond 200
                (ResBody.jsonSchema inputSchema inputData)))
    (fun err => do
      auditLogRequestError err endpointName endpoint
      logM (Event.nextError err))

/-- The audit record the router-level catch writes for an exception that
escaped a handler: event `genericErrorHandler`, stage `completion`, status
`failed`, carrying the error. -/
def genericErrorAudit (error : Err) : AuditEvent :=
  { eventName := "genericErrorHandler"
    stage := "completion"
    status := "failed"
    level := "error"
    errors := [error]
    message := "Exception thrown during processing request" }

/-- The router-level dispatch wrapper of `createBackendRouter` (lines
294-314): `openApiBackend.handleRequest` runs the registered handler; an
exception escaping it is audited as a `genericErrorHandler` failed
completion event and forwarded to `next`. -/
def handleRequestCatch (handler : M Unit) : M Unit :=
  tryCatchM handler
    (fun error => do
      logM (Event.audit (genericErrorAudit error))
      logM (Event.nextError error))

/-- Modelled from the spec: the HTTP status the transport error middleware
(an external collaborator, not part of this repository) assigns to an
error forwarded via `next`; the spec prescribes 400 validation, 403
authorization, 404 not found, 500 internal. -/
def errorHttpStatus (e : Err) : Nat :=
  match e with
  | Err.unauthorized => 403
  | Err.typeError _ => 500
  | Err.generic _ => 500
  | Err.upstream _ => 500

/-! Basic lemmas about the computation monad. -/

@[simp] theorem bind_eq_bindM (x : M α) (f : α → M β) : x >>= f = bindM x f := rfl

@[simp] theorem pure_eq_pureM (a : α) : (pure a : M α) = pureM a := rfl

@[simp] theorem bindM_mk_ok (a : α) (t : Trace) (f : α → M β) :
    bindM ⟨.ok a, t⟩ f = ⟨(f a).res, t ++ (f a).trace⟩ := rfl

@[simp] theorem bindM_mk_error (e : Err) (t : Trace) (f : α → M β) :
    bindM ⟨.error e, t⟩ f = ⟨.error e, t⟩ := rfl

@[simp] theorem pureM_res (a : α) : (pureM a).res = .ok a := rfl

@[simp] theorem pureM_trace (a : α) : (pureM a).trace = [] := rfl

@[simp] theorem logM_res (e : Event) : (logM e).res = .ok () := rfl

@[simp] theorem logM_trace (e : Event) : (logM e).trace = [e] := rfl

@[simp] theorem liftE_res (x : Except Err α) : (liftE x).res = x := rfl

@[simp] theorem liftE_trace (x : Except Err α) : (liftE x).trace = [] := rfl

@[simp] theorem callE_res (ev : Event) (x : Except Err α) : (callE ev x).res = x := rfl

@[simp] theorem callE_trace (ev : Event) (x : Except Err α) :
    (callE ev x).trace = [ev] := rfl

@[simp] theorem throwM_res (e : Err) : (throwM (α := α) e).res = .error e := rfl

@[simp] theorem throwM_trace (e : Err) : (throwM (α := α) e).trace = [] := rfl

@[simp] theorem logM_def (e : Event) : logM e = ⟨.ok (), [e]⟩ := rfl

@[simp] theorem liftE_def (x : Except Err α) : liftE x = ⟨x, []⟩ := rfl

@[simp] theorem callE_def (ev : Event) (x : Except Err α) :
    callE ev x = ⟨x, [ev]⟩ := rfl

@[simp] theorem throwM_def (e : Err) : throwM (α := α) e = ⟨.error e, []⟩ := rfl

theorem tryCatchM_of_ok (x : M α) (h : Err → M α) (a : α) (hx : x.res = .ok a) :
    tryCatchM x h = ⟨.ok a, x.trace⟩ := by
  unfold tryCatchM
  rw [hx]

theorem tryCatchM_of_error (x : M α) (h : Err → M α) (e : Err)
    (hx : x.res = .error e) :
    tryCatchM x h = ⟨(h e).res, x.trace ++ (h e).trace⟩ := by
  unfold tryCatchM
  rw [hx]

@[simp] theorem mk_res (r : Except Err α) (t : Trace) : (M.mk r t).res = r := rfl

@[simp] theorem mk_trace (r : Except Err α) (t : Trace) : (M.mk r t).trace = t := rfl

/-! Event predicates and trace checkers used to state the ordering and
audit-bracketing claims. -/

/-- Whether an event is a call to the permission service. -/
def isPermCallEvent : Event → Bool
  | .permCall _ => true
  | _ => false

/-- Whether an event is an access to workflow data or an engine operation
(anything served by the orchestration facade / v2 api). -/
def isDataAccessEvent : Event → Bool
  | .getInstanceByIdCall _ _ => true
  | .abortCall _ _ => true
  | .getWorkflowStatusesCall => true
  | .fetchWorkflowInfoCall _ => true
  | .fetchWorkflowDefinitionCall _ => true
  | .fetchInstanceVariablesCall _ => true
  | .getWorkflowInputSchemaCall _ _ => true
  | .getWorkflowSourceCall _ => true
  | _ => false

/-- Whether an event is a 200 response carrying data to the caller. -/
def isRespond200Event : Event → Bool
  | .respond status _ => status == 200
  | _ => false

/-- Whether an event is an invocation of the engine abort operation. -/
def isAbortCallEvent : Event → Bool
  | .abortCall _ _ => true
  | _ => false

/-- Whether an event is an audit record with the given stage. -/
def isAuditStage (stage : String) : Event → Bool
  | .audit e => e.stage == stage
  | _ => false

/-- Whether an event is a `next(error)` forwarding to the transport. -/
def isNextErrorEvent : Event → Bool
  | .nextError _ => true
  | _ => false

/-- Check that every event selected by `bad` is preceded (strictly earlier
in the trace) by a permission-service call; `seen` records whether such a
call occurred before the inspected suffix. -/
def permPrecedes (bad : Event → Bool) : Bool → Trace → Bool
  | _, [] => true
  | seen, e :: rest =>
    (!(bad e) || seen) && permPrecedes bad (seen || isPermCallEvent e) rest

/-- Count the audit events of a given stage in a trace. -/
def auditStageCount (stage : String) (t : Trace) : Nat :=
  t.countP (isAuditStage stage)

@[simp] theorem isAuditStage_audit (s : String) (e : AuditEvent) :
    isAuditStage s (Event.audit e) = (e.stage == s) := rfl

@[simp] theorem isAuditStage_permCall (s : String) (reqs : List Permission) :
    isAuditStage s (Event.permCall reqs) = false := rfl

@[simp] theorem isAuditStage_getInstanceByIdCall (s i : String) (b : Bool) :
    isAuditStage s (Event.getInstanceByIdCall i b) = false := rfl

@[simp] theorem isAuditStage_abortCall (s w i : String) :
    isAuditStage s (Event.abortCall w i) = false := rfl

@[simp] theorem isAuditStage_statusesCall (s : String) :
    isAuditStage s Event.getWorkflowStatusesCall = false := rfl

@[simp] theorem isAuditStage_infoCall (s w : String) :
    isAuditStage s (Event.fetchWorkflowInfoCall w) = false := rfl

@[simp] theorem isAuditStage_defCall (s w : String) :
    isAuditStage s (Event.fetchWorkflowDefinitionCall w) = false := rfl

@[simp] theorem isAuditStage_varsCall (s i : String) :
    isAuditStage s (Event.fetchInstanceVariablesCall i) = false := rfl

@[simp] theorem isAuditStage_schemaCall (s w u : String) :
    isAuditStage s (Event.getWorkflowInputSchemaCall w u) = false := rfl

@[simp] theorem isAuditStage_sourceCall (s w : String) :
    isAuditStage s (Event.getWorkflowSourceCall w) = false := rfl

@[simp] theorem isAuditStage_respond (s : String) (n : Nat) (b : ResBody) :
    isAuditStage s (Event.respond n b) = false := rfl

@[simp] theorem isAuditStage_nextError (s : String) (e : Err) :
    isAuditStage s (Event.nextError e) = false := rfl

@[simp] theorem isRespond200_audit (e : AuditEvent) :
    isRespond200Event (Event.audit e) = false := rfl

@[simp] theorem isRespond200_permCall (reqs : List Permission) :
    isRespond200Event (Event.permCall reqs) = false := rfl

@[simp] theorem isRespond200_getInstanceByIdCall (i : String) (b : Bool) :
    isRespond200Event (Event.getInstanceByIdCall i b) = false := rfl

@[simp] theorem isRespond200_sourceCall (w : String) :
    isRespond200Event (Event.getWorkflowSourceCall w) = false := rfl

@[simp] theorem isRespond200_respond (n : Nat) (b : ResBody) :
    isRespond200Event (Event.respond n b) = (n == 200) := rfl

@[simp] theorem isRespond200_nextError (e : Err) :
    isRespond200Event (Event.nextError e) = false := rfl

/-! Characterization of the permission gate. -/

/-- Evaluating the candidates one service call each: under a well-formed
service answering `[p]` with the single decision `dec p`, the batch of
independent calls returns those singleton responses and shows one
permission call event per candidate, in order. -/
theorem mapML_permCall_ok (env : Env) (creds : Credentials)
    (dec : Permission → Decision)
    (hp : ∀ p, env.permAuthorize [p] creds = .ok [dec p]) :
    ∀ ps : List Permission,
      mapML (fun p => permCallM env [p] creds) ps =
        ⟨.ok (ps.map (fun p => [dec p])), ps.map (fun p => Event.permCall [p])⟩ := by
  intro ps
  induction ps with
  | nil => rfl
  | cons p ps ih =>
    simp only [mapML, ih]
    simp [permCallM, hp p, bindM, pureM]

/-- Finding the first ALLOW over well-formed (all present) decisions never
throws and agrees with `List.find?`. -/
theorem findAllowJS_map_some (ds : List Decision) :
    findAllowJS (ds.map some) =
      .ok (ds.find? (fun d => d.result == AuthorizeResult.ALLOW)) := by
  induction ds with
  | nil => rfl
  | cons d ds ih =>
    by_cases h : d.result == AuthorizeResult.ALLOW
    · simp [findAllowJS, h, List.find?_cons_of_pos _ h]
    · simp only [List.map_cons, findAllowJS, h, if_neg]
      rw [List.find?_cons_of_neg _ (by simpa using h)]
      exact ih

/-- Rewriting `findAllowJS` over a pointwise-`some` map. -/
theorem findAllowJS_comp (dec : Permission → Decision) (ps : List Permission) :
    findAllowJS (ps.map (fun p => some (dec p))) =
      .ok ((ps.map dec).find? (fun d => d.result == AuthorizeResult.ALLOW)) := by
  rw [show ps.map (fun p => some (dec p)) = (ps.map dec).map some by
    simp [List.map_map, Function.comp]]
  exact findAllowJS_map_some _

/-- The two-valued decision space: not ALLOW is exactly DENY. -/
theorem authorizeResult_not_allow (r : AuthorizeResult) :
    ¬r = AuthorizeResult.ALLOW ↔ r = AuthorizeResult.DENY := by
  cases r <;> simp

/-- The first-ALLOW-or-DENY default is ALLOW exactly when some decision in
the list is ALLOW. -/
theorem firstAllow_allow_iff (ds : List Decision) :
    (((ds.find? (fun d => d.result == AuthorizeResult.ALLOW)).getD
        { result := AuthorizeResult.DENY }).result = AuthorizeResult.ALLOW
      ↔ ∃ d ∈ ds, d.result = AuthorizeResult.ALLOW) := by
  induction ds with
  | nil => simp
  | cons d ds ih =>
    by_cases h : d.result = AuthorizeResult.ALLOW
    · rw [List.find?_cons_of_pos _ (by simpa using h)]
      simp [h]
    · rw [List.find?_cons_of_neg _ (by simpa using h)]
      simp [h, ih]

/-- The batched per-id filter over decisions generated by a membership
test keeps exactly the ids passing the test, in order. -/
theorem filterByDecisions_map (p : String → Bool) :
    ∀ ids : List String,
      filterByDecisions ids (ids.map (fun id =>
          if p id then { result := AuthorizeResult.ALLOW }
          else { result := AuthorizeResult.DENY })) =
        .ok (ids.filter p) := by
  intro ids
  induction ids with
  | nil => rfl
  | cons id ids ih =>
    by_cases h : p id <;>
      simp [filterByDecisions, h, ih, List.filter_cons]

/-- C1: for every list of candidate permissions and credentials, `authorize`
evaluates each candidate independently (one single-permission service call
per candidate, in order, as the trace shows) and returns the first ALLOW
decision in the order the candidates were given, defaulting to DENY; hence
it returns ALLOW iff at least one candidate decision is ALLOW and DENY iff
every candidate decision is DENY. -/
theorem authorize_any_of (env : Env) (creds : Credentials)
    (dec : Permission → Decision)
    (hc : env.credentials = .ok creds)
    (hp : ∀ p, env.permAuthorize [p] creds = .ok [dec p])
    (anyOfPermissions : List Permission) :
    authorize env anyOfPermissions =
      ⟨.ok (((anyOfPermissions.map dec).find?
            (fun d => d.result == AuthorizeResult.ALLOW)).getD
          { result := AuthorizeResult.DENY }),
        anyOfPermissions.map (fun p => Event.permCall [p])⟩
    ∧ ((authorize env anyOfPermissions).res
          = .ok { result := AuthorizeResult.ALLOW }
        ↔ ∃ p ∈ anyOfPermissions, (dec p).result = AuthorizeResult.ALLOW)
    ∧ ((authorize env anyOfPermissions).res
          = .ok { result := AuthorizeResult.DENY }
        ↔ ∀ p ∈ anyOfPermissions, (dec p).result = AuthorizeResult.DENY) := by
  have heq : authorize env anyOfPermissions =
      ⟨.ok (((anyOfPermissions.map dec).find?
            (fun d => d.result == AuthorizeResult.ALLOW)).getD
          { result := AuthorizeResult.DENY }),
        anyOfPermissions.map (fun p => Event.permCall [p])⟩ := by
    unfold authorize
    simp only [bind_eq_bindM, hc, liftE, bindM_mk_ok,
      mapML_permCall_ok env creds dec hp, mk_res, mk_trace]
    simp only [List.map_map]
    have hcomp : (List.head? ∘ fun p => [dec p]) = fun p => some (dec p) := by
      funext p
      rfl
    rw [hcomp, findAllowJS_comp]
    cases hfind : (anyOfPermissions.map dec).find?
        (fun d => d.result == AuthorizeResult.ALLOW) with
    | none => simp [bindM, pureM, hfind]
    | some d => simp [bindM, pureM, hfind]
  refine ⟨heq, ?_, ?_⟩
  · rw [heq]
    simp only [mk_res, Except.ok.injEq]
    constructor
    · intro h
      have := (firstAllow_allow_iff (anyOfPermissions.map dec)).mp (by rw [h])
      simpa using this
    · intro h
      have h2 : ∃ d ∈ anyOfPermissions.map dec,
          d.result = AuthorizeResult.ALLOW := by
        simpa using h
      have := (firstAllow_allow_iff (anyOfPermissions.map dec)).mpr h2
      cases hfind : (anyOfPermissions.map dec).find?
          (fun d => d.result == AuthorizeResult.ALLOW) with
      | none => simp [hfind] at this
      | some d =>
        simp only [hfind, Option.getD_some] at this ⊢
        cases d
        simp_all
  · rw [heq]
    simp only [mk_res, Except.ok.injEq]
    constructor
    · intro h p hp2
      by_contra hne
      have ha : (dec p).result = AuthorizeResult.ALLOW := by
        rcases hr : (dec p).result <;> simp_all
      have h2 : ∃ d ∈ anyOfPermissions.map dec,
          d.result = AuthorizeResult.ALLOW :=
        ⟨dec p, List.mem_map_of_mem _ hp2, ha⟩
      have h3 := (firstAllow_allow_iff (anyOfPermissions.map dec)).mpr h2
      rw [h] at h3
      simp at h3
    · intro h
      cases hfind : (anyOfPermissions.map dec).find?
          (fun d => d.result == AuthorizeResult.ALLOW) with
      | none => simp [hfind]
      | some d =>
        have hd := List.find?_some hfind
        have hmem := List.mem_of_find?_eq_some hfind
        have : d.result = AuthorizeResult.ALLOW := by simpa using hd
        obtain ⟨p, hp3, hdp⟩ := List.mem_map.mp hmem
        rw [← hdp] at this
        exact absurd this (by simp [h p hp3])

/-- C2: a caller granted the generic workflow read permission gets every
workflow id back unchanged, and the only permission-service call made is
the single generic-permission one — the trace holds exactly that call and
no per-id evaluation. -/
theorem filterAuthorizedWorkflowIds_generic_allow (env : Env)
    (creds : Credentials)
    (hc : env.credentials = .ok creds)
    (hg : env.permAuthorize [Permission.workflow] creds =
      .ok [{ result := AuthorizeResult.ALLOW }])
    (workflowIds : List String) :
    filterAuthorizedWorkflowIds env workflowIds =
      ⟨.ok workflowIds, [Event.permCall [Permission.workflow]]⟩ := by
  unfold filterAuthorizedWorkflowIds
  simp [hc, hg, permCallM, head0, bindM, liftE, pureM]

/-- C3: when the generic workflow permission is denied and the caller
holds specific grants for exactly the ids in `s`, the gate issues one
batched authorization call containing a specific-permission request for
every id of the input (after the generic call, as the trace shows) and
returns exactly the input ids belonging to `s`, in input order. -/
theorem filterAuthorizedWorkflowIds_specific_subset (env : Env)
    (creds : Credentials) (s : List String)
    (hc : env.credentials = .ok creds)
    (hg : env.permAuthorize [Permission.workflow] creds =
      .ok [{ result := AuthorizeResult.DENY }])
    (workflowIds : List String)
    (hs : env.permAuthorize
        (workflowIds.map (fun workflowId => Permission.workflowSpecific workflowId))
        creds =
      .ok (workflowIds.map (fun id =>
        if s.contains id then { result := AuthorizeResult.ALLOW }
        else { result := AuthorizeResult.DENY }))) :
    filterAuthorizedWorkflowIds env workflowIds =
      ⟨.ok (workflowIds.filter (fun id => s.contains id)),
       [Event.permCall [Permission.workflow],
        Event.permCall (workflowIds.map (fun workflowId =>
          Permission.workflowSpecific workflowId))]⟩ := by
  unfold filterAuthorizedWorkflowIds
  simp [hc, hg, hs, permCallM, head0, bindM, liftE, pureM]
  simpa using filterByDecisions_map (fun id => s.contains id) workflowIds

/-- C9: when the underlying permission service fails with an error rather
than returning a decision, both `authorize` (called on at least one
candidate, so that a service call happens) and `filterAuthorizedWorkflowIds`
propagate that very failure to the caller; neither converts it into an
ALLOW or DENY decision. -/
theorem permission_service_failure_propagates (env : Env)
    (creds : Credentials) (e : Err)
    (hc : env.credentials = .ok creds)
    (he : ∀ reqs, env.permAuthorize reqs creds = .error e) :
    (∀ p ps, (authorize env (p :: ps)).res = .error e)
    ∧ ∀ workflowIds,
        (filterAuthorizedWorkflowIds env workflowIds).res = .error e := by
  constructor
  · intro p ps
    unfold authorize
    simp [hc, mapML, permCallM, he, bindM, liftE]
  · intro workflowIds
    unfold filterAuthorizedWorkflowIds
    simp [hc, permCallM, he, bindM, liftE]

/-- C10: a workflow overview list result with absent overviews is returned
unchanged with no permission evaluation at all (the trace is empty);
with overviews present, the result keeps every other field unchanged and
its overviews are the subsequence of the input overviews whose workflow id
lies in the list the authorized-id filter returned. -/
theorem filterAuthorizedWorkflows_spec (env : Env)
    (workflows : WorkflowOverviewListResultDTO) :
    (workflows.overviews = none →
      filterAuthorizedWorkflows env workflows = ⟨.ok workflows, []⟩)
    ∧ ∀ overviews authorizedIds tr,
        workflows.overviews = some overviews →
        filterAuthorizedWorkflowIds env
            (overviews.map (fun w => w.workflowId)) = ⟨.ok authorizedIds, tr⟩ →
        filterAuthorizedWorkflows env workflows =
          ⟨.ok { workflows with
                 overviews := some (overviews.filter
                   (fun w => authorizedIds.contains w.workflowId)) }, tr⟩ := by
  constructor
  · intro h
    unfold filterAuthorizedWorkflows
    simp [h, pureM]
  · intro overviews authorizedIds tr h hids
    unfold filterAuthorizedWorkflows
    simp [h, hids, bindM, pureM]

/-! Concrete sample collaborators, used to instantiate the theorems. -/

/-- Permission service granting every request. -/
def grantAll : List Permission → Credentials → Except Err (List Decision) :=
  fun reqs _ => .ok (reqs.map (fun _ => { result := AuthorizeResult.ALLOW }))

/-- Permission service denying every request. -/
def denyAll : List Permission → Credentials → Except Err (List Decision) :=
  fun reqs _ => .ok (reqs.map (fun _ => { result := AuthorizeResult.DENY }))

/-- Permission service granting only workflow-specific read permissions for
ids in `s`, denying everything else (in particular the generic ones). -/
def grantSpecificOnly (s : List String) :
    List Permission → Credentials → Except Err (List Decision) :=
  fun reqs _ => .ok (reqs.map (fun p =>
    match p with
    | Permission.workflowSpecific id =>
      if s.contains id then { result := AuthorizeResult.ALLOW }
      else { result := AuthorizeResult.DENY }
    | _ => { result := AuthorizeResult.DENY }))

/-- Permission service failing every call. -/
def failPerm (e : Err) :
    List Permission → Credentials → Except Err (List Decision) :=
  fun _ _ => .error e

/-- A sample environment around a given permission service behaviour. -/
def baseEnv (permAuthorize :
    List Permission → Credentials → Except Err (List Decision)) : Env where
  credentials := .ok ⟨"user:default/alice"⟩
  permAuthorize := permAuthorize
  v2GetInstanceById := fun i _ => .ok ⟨⟨i, "wf-X"⟩⟩
  v2AbortWorkflow := fun _ i => .ok i
  v2GetWorkflowStatuses := .ok ["ACTIVE", "COMPLETED"]
  v2GetWorkflowSourceById := fun _ => .ok "id: wf1"
  v2GetWorkflowInputSchemaById := fun _ _ =>
    .ok { serviceUrl := some "http://svc"
          inputSchema := some { properties := some [("x", ⟨true, 0⟩)] } }
  fetchWorkflowInfo := fun _ => .ok (some { serviceUrl := some "http://svc" })
  fetchWorkflowDefinition := fun _ => .ok (some { dataInputSchema := none })
  fetchInstanceVariables := fun _ => .ok (some [("x", ⟨true, 1⟩)])
  extractWorkflowData := fun j => some j

/-- Witness for C1: two candidates where only the second allows; the gate
makes one service call per candidate and returns ALLOW. -/
theorem authorize_any_of_witness :
    authorize (baseEnv (grantSpecificOnly ["wf-A"]))
        [Permission.workflow, Permission.workflowSpecific "wf-A"] =
      ⟨.ok { result := AuthorizeResult.ALLOW },
       [Event.permCall [Permission.workflow],
        Event.permCall [Permission.workflowSpecific "wf-A"]]⟩ := by
  have h := (authorize_any_of (baseEnv (grantSpecificOnly ["wf-A"]))
    ⟨"user:default/alice"⟩
    (fun p => match p with
      | Permission.workflowSpecific id =>
        if ["wf-A"].contains id then { result := AuthorizeResult.ALLOW }
        else { result := AuthorizeResult.DENY }
      | _ => { result := AuthorizeResult.DENY })
    rfl (fun p => by cases p <;> rfl)
    [Permission.workflow, Permission.workflowSpecific "wf-A"]).1
  rw [h]
  rfl

/-- Witness for C2: with the all-granting service, the three ids come back
unchanged off a single generic-permission call. -/
theorem filterAuthorizedWorkflowIds_generic_allow_witness :
    filterAuthorizedWorkflowIds (baseEnv grantAll) ["wf-A", "wf-B", "wf-C"] =
      ⟨.ok ["wf-A", "wf-B", "wf-C"], [Event.permCall [Permission.workflow]]⟩ :=
  filterAuthorizedWorkflowIds_generic_allow (baseEnv grantAll)
    ⟨"user:default/alice"⟩ rfl rfl ["wf-A", "wf-B", "wf-C"]

/-- Witness for C3: specific grants for `wf-A` and `wf-C` only; the gate
batches one specific request per input id and keeps exactly those two, in
input order. -/
theorem filterAuthorizedWorkflowIds_specific_subset_witness :
    filterAuthorizedWorkflowIds (baseEnv (grantSpecificOnly ["wf-A", "wf-C"]))
        ["wf-A", "wf-B", "wf-C"] =
      ⟨.ok ["wf-A", "wf-C"],
       [Event.permCall [Permission.workflow],
        Event.permCall [Permission.workflowSpecific "wf-A",
          Permission.workflowSpecific "wf-B",
          Permission.workflowSpecific "wf-C"]]⟩ := by
  have h := filterAuthorizedWorkflowIds_specific_subset
    (baseEnv (grantSpecificOnly ["wf-A", "wf-C"])) ⟨"user:default/alice"⟩
    ["wf-A", "wf-C"] rfl rfl ["wf-A", "wf-B", "wf-C"] rfl
  rw [h]
  rfl

/-- Witness for C9: a failing permission service error surfaces unchanged
from both gate entry points. -/
theorem permission_service_failure_propagates_witness :
    (authorize (baseEnv (failPerm (Err.upstream "perm backend down")))
        [Permission.workflow]).res = .error (Err.upstream "perm backend down")
    ∧ (filterAuthorizedWorkflowIds
        (baseEnv (failPerm (Err.upstream "perm backend down")))
        ["wf-A"]).res = .error (Err.upstream "perm backend down") := by
  have h := permission_service_failure_propagates
    (baseEnv (failPerm (Err.upstream "perm backend down")))
    ⟨"user:default/alice"⟩ (Err.upstream "perm backend down") rfl (fun _ => rfl)
  exact ⟨h.1 Permission.workflow [], h.2 ["wf-A"]⟩

/-- Witness for C10: an absent overview list passes through untouched with
an empty trace, and a present one is filtered to the authorized ids with
the pagination fields intact. -/
theorem filterAuthorizedWorkflows_spec_witness :
    filterAuthorizedWorkflows (baseEnv grantAll)
        { overviews := none, paginationInfoOffset := some 0 } =
      ⟨.ok { overviews := none, paginationInfoOffset := some 0 }, []⟩
    ∧ filterAuthorizedWorkflows (baseEnv (grantSpecificOnly ["wf-A"]))
        { overviews := some [⟨"wf-A", none⟩, ⟨"wf-B", none⟩]
          paginationInfoOffset := some 0 } =
      ⟨.ok { overviews := some [⟨"wf-A", none⟩]
             paginationInfoOffset := some 0 },
       [Event.permCall [Permission.workflow],
        Event.permCall [Permission.workflowSpecific "wf-A",
          Permission.workflowSpecific "wf-B"]]⟩ := by
  constructor
  · exact (filterAuthorizedWorkflows_spec (baseEnv grantAll)
      { overviews := none, paginationInfoOffset := some 0 }).1 rfl
  · have h := (filterAuthorizedWorkflows_spec
      (baseEnv (grantSpecificOnly ["wf-A"]))
      { overviews := some [⟨"wf-A", none⟩, ⟨"wf-B", none⟩]
        paginationInfoOffset := some 0 }).2
      [⟨"wf-A", none⟩, ⟨"wf-B", none⟩] ["wf-A"]
      [Event.permCall [Permission.workflow],
       Event.permCall [Permission.workflowSpecific "wf-A",
         Permission.workflowSpecific "wf-B"]]
      rfl
      (by
        have h2 := filterAuthorizedWorkflowIds_specific_subset
          (baseEnv (grantSpecificOnly ["wf-A"])) ⟨"user:default/alice"⟩
          ["wf-A"] rfl rfl ["wf-A", "wf-B"] rfl
        have h3 : (List.map (fun w => w.workflowId)
            [(⟨"wf-A", none⟩ : WorkflowOverviewDTO), ⟨"wf-B", none⟩]) =
            ["wf-A", "wf-B"] := rfl
        rw [h3, h2]
        rfl)
    rw [h]
    rfl

/-- Whether an event is an audit record with status `failed`. -/
def isFailedAudit : Event → Bool
  | .audit e => e.status == "failed"
  | _ => false

/-- Whether an event is a fetch of instance variables. -/
def isInstanceVariablesFetch : Event → Bool
  | .fetchInstanceVariablesCall _ => true
  | _ => false

/-- Evaluation of the gate on a two-candidate any-of list, as used by every
registered handler: both candidates are evaluated in independent service
calls, and the decision is the first ALLOW, else DENY. -/
theorem authorize_pair (env : Env) (creds : Credentials)
    (p1 p2 : Permission) (d1 d2 : Decision)
    (hc : env.credentials = .ok creds)
    (h1 : env.permAuthorize [p1] creds = .ok [d1])
    (h2 : env.permAuthorize [p2] creds = .ok [d2]) :
    authorize env [p1, p2] =
      ⟨.ok (if d1.result == AuthorizeResult.ALLOW then d1
            else if d2.result == AuthorizeResult.ALLOW then d2
            else { result := AuthorizeResult.DENY }),
       [Event.permCall [p1], Event.permCall [p2]]⟩ := by
  rcases d1 with ⟨r1⟩
  rcases d2 with ⟨r2⟩
  unfold authorize
  cases r1 <;> cases r2 <;>
    simp [hc, h1, h2, mapML, permCallM, findAllowJS, bindM, liftE, pureM]

/-- C7: an abort request for an instance owned by a workflow on which the
caller is denied both the generic and the specific use permission produces
a trace that fetches the instance, evaluates both permissions, audits the
denial and a failed completion, and forwards the `UnauthorizedError` to the
transport — which, per the specified error taxonomy, maps it to HTTP 403 —
while the engine abort operation is never invoked. -/
theorem abortWorkflow_denied (env : Env) (creds : Credentials)
    (instanceId iid2 wfX : String)
    (hc : env.credentials = .ok creds)
    (hinst : env.v2GetInstanceById instanceId false = .ok ⟨⟨iid2, wfX⟩⟩)
    (hp1 : env.permAuthorize [Permission.workflowUse] creds =
      .ok [{ result := AuthorizeResult.DENY }])
    (hp2 : env.permAuthorize [Permission.workflowUseSpecific wfX] creds =
      .ok [{ result := AuthorizeResult.DENY }]) :
    abortWorkflowHandler env instanceId =
      ⟨.ok (),
       [Event.audit (startAudit "abortWorkflow"
          ("/v2/workflows/instances/" ++ instanceId ++ "/abort")),
        Event.getInstanceByIdCall instanceId false,
        Event.permCall [Permission.workflowUse],
        Event.permCall [Permission.workflowUseSpecific wfX],
        Event.audit (denyAudit "abortWorkflow"
          ("/v2/workflows/instances/" ++ instanceId ++ "/abort")),
        Event.audit (requestErrorAudit Err.unauthorized "abortWorkflow"
          ("/v2/workflows/instances/" ++ instanceId ++ "/abort")),
        Event.nextError Err.unauthorized]⟩
    ∧ (abortWorkflowHandler env instanceId).trace.any isAbortCallEvent = false
    ∧ (abortWorkflowHandler env instanceId).trace.any isFailedAudit = true
    ∧ errorHttpStatus Err.unauthorized = 403 := by
  have heq : abortWorkflowHandler env instanceId =
      ⟨.ok (),
       [Event.audit (startAudit "abortWorkflow"
          ("/v2/workflows/instances/" ++ instanceId ++ "/abort")),
        Event.getInstanceByIdCall instanceId false,
        Event.permCall [Permission.workflowUse],
        Event.permCall [Permission.workflowUseSpecific wfX],
        Event.audit (denyAudit "abortWorkflow"
          ("/v2/workflows/instances/" ++ instanceId ++ "/abort")),
        Event.audit (requestErrorAudit Err.unauthorized "abortWorkflow"
          ("/v2/workflows/instances/" ++ instanceId ++ "/abort")),
        Event.nextError Err.unauthorized]⟩ := by
    have hauth : authorize env
        [Permission.workflowUse, Permission.workflowUseSpecific wfX] =
        ⟨.ok { result := AuthorizeResult.DENY },
         [Event.permCall [Permission.workflowUse],
          Event.permCall [Permission.workflowUseSpecific wfX]]⟩ := by
      rw [authorize_pair env creds _ _ _ _ hc hp1 hp2]
      rfl
    unfold abortWorkflowHandler
    simp [hinst, hauth, logStart, manageDenyAuthorization, auditLogRequestError,
      bindM, pureM, liftE, logM, callE, throwM, tryCatchM]
  refine ⟨heq, ?_, ?_, rfl⟩
  · rw [heq]
    simp [isAbortCallEvent]
  · rw [heq]
    simp [isFailedAudit, denyAudit]

/-- Witness for C7: the all-denying service on instance `i1` owned by
`wf-X` — a failed audit trail, the error forwarded (mapped to 403), and no
engine abort call in the trace. -/
theorem abortWorkflow_denied_witness :
    (abortWorkflowHandler (baseEnv denyAll) "i1").trace.any isAbortCallEvent
        = false
    ∧ (abortWorkflowHandler (baseEnv denyAll) "i1").trace.any isFailedAudit
        = true
    ∧ errorHttpStatus Err.unauthorized = 403 := by
  have h := abortWorkflow_denied (baseEnv denyAll) ⟨"user:default/alice"⟩
    "i1" "i1" "wf-X" rfl rfl rfl rfl
  exact ⟨h.2.1, h.2.2.1, h.2.2.2⟩

/-- C6 counterexample: the audit event `manageDenyAuthorization` emits for
a denial has stage `authorization`, not stage `completion` as the claim
states. -/
theorem manageDenyAuthorization_stage_cex :
    (manageDenyAuthorization (α := Unit) "getWorkflowSourceById"
        "/v2/workflows/wf1/source").trace =
      [Event.audit (denyAudit "getWorkflowSourceById" "/v2/workflows/wf1/source")]
    ∧ (denyAudit "getWorkflowSourceById" "/v2/workflows/wf1/source").stage
        = "authorization"
    ∧ ¬(denyAudit "getWorkflowSourceById" "/v2/workflows/wf1/source").stage
        = "completion" := by
  refine ⟨rfl, rfl, ?_⟩
  decide

/-- C6 (amended): a denial is audited by `manageDenyAuthorization` as a
failed event of stage `authorization` carrying the `UnauthorizedError`,
emitted before the error is thrown (the event is in the trace of the
computation whose result is the thrown error); and before the request is
rejected to the transport a failed audit event of stage `completion`
carrying the same error is additionally emitted by the surrounding catch —
shown here for the `getWorkflowSourceById` dispatch, where the router-level
catch writes the `genericErrorHandler` completion event ahead of the
`next(error)` forwarding. -/
theorem deny_audited_before_rejection (env : Env) (creds : Credentials)
    (workflowId : String)
    (hc : env.credentials = .ok creds)
    (hp1 : env.permAuthorize [Permission.workflow] creds =
      .ok [{ result := AuthorizeResult.DENY }])
    (hp2 : env.permAuthorize [Permission.workflowSpecific workflowId] creds =
      .ok [{ result := AuthorizeResult.DENY }]) :
    (∀ endpointName endpoint,
      manageDenyAuthorization (α := Unit) endpointName endpoint =
        ⟨.error Err.unauthorized,
         [Event.audit (denyAudit endpointName endpoint)]⟩)
    ∧ handleRequestCatch (getWorkflowSourceByIdHandler env workflowId) =
      ⟨.ok (),
       [Event.audit (startAudit "getWorkflowSourceById"
          ("/v2/workflows/" ++ workflowId ++ "/source")),
        Event.permCall [Permission.workflow],
        Event.permCall [Permission.workflowSpecific workflowId],
        Event.audit (denyAudit "getWorkflowSourceById"
          ("/v2/workflows/" ++ workflowId ++ "/source")),
        Event.audit (genericErrorAudit Err.unauthorized),
        Event.nextError Err.unauthorized]⟩ := by
  constructor
  · intro endpointName endpoint
    rfl
  · have hauth : authorize env
        [Permission.workflow, Permission.workflowSpecific workflowId] =
        ⟨.ok { result := AuthorizeResult.DENY },
         [Event.permCall [Permission.workflow],
          Event.permCall [Permission.workflowSpecific workflowId]]⟩ := by
      rw [authorize_pair env creds _ _ _ _ hc hp1 hp2]
      rfl
    unfold handleRequestCatch getWorkflowSourceByIdHandler
    simp [hauth, logStart, manageDenyAuthorization, auditLogRequestError,
      bindM, pureM, liftE, logM, callE, throwM, tryCatchM]

/-- Witness for C6 (amended): the all-denying service on the source
endpoint for workflow `wf1`. -/
theorem deny_audited_before_rejection_witness :
    handleRequestCatch (getWorkflowSourceByIdHandler (baseEnv denyAll) "wf1") =
      ⟨.ok (),
       [Event.audit (startAudit "getWorkflowSourceById" "/v2/workflows/wf1/source"),
        Event.permCall [Permission.workflow],
        Event.permCall [Permission.workflowSpecific "wf1"],
        Event.audit (denyAudit "getWorkflowSourceById" "/v2/workflows/wf1/source"),
        Event.audit (genericErrorAudit Err.unauthorized),
        Event.nextError Err.unauthorized]⟩ := by
  have h := (deny_audited_before_rejection (baseEnv denyAll)
    ⟨"user:default/alice"⟩ "wf1" rfl rfl rfl).2
  rw [h]
  rfl

/-- C8: an authorized input-schema request for a workflow whose fetched
definition has no `dataInputSchema` responds 200 with the empty object and
never fetches instance variables, whatever the `instanceId` query
parameter was — the trace holds the start audit, the two permission calls,
the info and definition fetches, and the empty-object 200 response, and in
particular no instance-variables fetch. -/
theorem getWorkflowInputSchemaById_no_dataInputSchema (env : Env)
    (creds : Credentials) (workflowId u : String) (d1 d2 : Decision)
    (info : WorkflowInfo)
    (hc : env.credentials = .ok creds)
    (hp1 : env.permAuthorize [Permission.workflow] creds = .ok [d1])
    (hp2 : env.permAuthorize [Permission.workflowSpecific workflowId] creds =
      .ok [d2])
    (hallow : d1.result = AuthorizeResult.ALLOW
      ∨ d2.result = AuthorizeResult.ALLOW)
    (hinfo : env.fetchWorkflowInfo workflowId = .ok (some info))
    (hurl : info.serviceUrl = some u)
    (hdef : env.fetchWorkflowDefinition workflowId =
      .ok (some { dataInputSchema := none })) :
    ∀ instanceId,
      getWorkflowInputSchemaByIdHandler env workflowId instanceId =
        ⟨.ok (),
         [Event.audit (startAudit "getWorkflowInputSchemaById"
            ("/v2/workflows/" ++ workflowId ++ "/inputSchema")),
          Event.permCall [Permission.workflow],
          Event.permCall [Permission.workflowSpecific workflowId],
          Event.fetchWorkflowInfoCall workflowId,
          Event.fetchWorkflowDefinitionCall workflowId,
          Event.respond 200 ResBody.emptyObj]⟩
      ∧ (getWorkflowInputSchemaByIdHandler env workflowId
          instanceId).trace.any isInstanceVariablesFetch = false := by
  intro instanceId
  rcases info with ⟨su, isch⟩
  simp only [WorkflowInfo.serviceUrl] at hurl
  subst hurl
  have heq : getWorkflowInputSchemaByIdHandler env workflowId instanceId =
      ⟨.ok (),
       [Event.audit (startAudit "getWorkflowInputSchemaById"
          ("/v2/workflows/" ++ workflowId ++ "/inputSchema")),
        Event.permCall [Permission.workflow],
        Event.permCall [Permission.workflowSpecific workflowId],
        Event.fetchWorkflowInfoCall workflowId,
        Event.fetchWorkflowDefinitionCall workflowId,
        Event.respond 200 ResBody.emptyObj]⟩ := by
    have hauth : authorize env
        [Permission.workflow, Permission.workflowSpecific workflowId] =
        ⟨.ok { result := AuthorizeResult.ALLOW },
         [Event.permCall [Permission.workflow],
          Event.permCall [Permission.workflowSpecific workflowId]]⟩ := by
      rw [authorize_pair env creds _ _ _ _ hc hp1 hp2]
      rcases d1 with ⟨r1⟩
      rcases d2 with ⟨r2⟩
      rcases hallow with h | h <;> cases r1 <;> cases r2 <;> simp_all
    unfold getWorkflowInputSchemaByIdHandler
    simp [hauth, hinfo, hdef, logStart, manageDenyAuthorization,
      auditLogRequestError, bindM, pureM, liftE, logM, callE, throwM,
      tryCatchM]
  refine ⟨heq, ?_⟩
  rw [heq]
  simp [isInstanceVariablesFetch]

/-- Witness for C8: all-granting service, a definition without a data
input schema, and a supplied `instanceId` — the response is 200 with the
empty object and the trace contains no instance-variables fetch. -/
theorem getWorkflowInputSchemaById_no_dataInputSchema_witness :
    getWorkflowInputSchemaByIdHandler (baseEnv grantAll) "wf1" (some "i1") =
      ⟨.ok (),
       [Event.audit (startAudit "getWorkflowInputSchemaById"
          "/v2/workflows/wf1/inputSchema"),
        Event.permCall [Permission.workflow],
        Event.permCall [Permission.workflowSpecific "wf1"],
        Event.fetchWorkflowInfoCall "wf1",
        Event.fetchWorkflowDefinitionCall "wf1",
        Event.respond 200 ResBody.emptyObj]⟩
    ∧ (getWorkflowInputSchemaByIdHandler (baseEnv grantAll) "wf1"
        (some "i1")).trace.any isInstanceVariablesFetch = false := by
  have h := getWorkflowInputSchemaById_no_dataInputSchema (baseEnv grantAll)
    ⟨"user:default/alice"⟩ "wf1" "http://svc"
    { result := AuthorizeResult.ALLOW } { result := AuthorizeResult.ALLOW }
    { serviceUrl := some "http://svc" }
    rfl rfl rfl (Or.inl rfl) rfl rfl rfl (some "i1")
  exact ⟨by rw [h.1]; rfl, h.2⟩

/-! Lemmas about the ordering checker `permPrecedes`. -/

/-- Once a permission call has been seen, any continuation passes. -/
theorem permPrecedes_seen_true (bad : Event → Bool) :
    ∀ t : Trace, permPrecedes bad true t = true := by
  intro t
  induction t with
  | nil => rfl
  | cons e rest ih => simp [permPrecedes, ih]

/-- A trace without selected events passes with any accumulator. -/
theorem permPrecedes_no_bad (bad : Event → Bool) :
    ∀ (t : Trace) (seen : Bool), t.all (fun e => !(bad e)) = true →
      permPrecedes bad seen t = true := by
  intro t
  induction t with
  | nil => intro seen _; rfl
  | cons e rest ih =>
    intro seen h
    simp only [List.all_cons, Bool.and_eq_true] at h
    simp [permPrecedes, h.1, ih _ h.2]

/-- Splitting the checker along an append: the first part is checked with
the incoming accumulator, the second with the accumulator extended by the
permission calls of the first. -/
theorem permPrecedes_append (bad : Event → Bool) :
    ∀ (t1 t2 : Trace) (seen : Bool),
      permPrecedes bad seen (t1 ++ t2) =
        (permPrecedes bad seen t1
          && permPrecedes bad (seen || t1.any isPermCallEvent) t2) := by
  intro t1
  induction t1 with
  | nil => intro t2 seen; simp [permPrecedes]
  | cons e rest ih =>
    intro t2 seen
    simp only [List.cons_append, permPrecedes, List.any_cons, List.append_eq]
    rw [ih]
    simp [Bool.and_assoc, Bool.or_assoc]

/-- A permission-service call event is not a 200 response. -/
theorem isPermCall_not_respond200 (e : Event)
    (h : isPermCallEvent e = true) : isRespond200Event e = false := by
  cases e <;> simp_all [isPermCallEvent, isRespond200Event]

/-- A permission-service call event is not an engine abort call. -/
theorem isPermCall_not_abortCall (e : Event)
    (h : isPermCallEvent e = true) : isAbortCallEvent e = false := by
  cases e <;> simp_all [isPermCallEvent, isAbortCallEvent]

/-- A permission-service call event is not a data access. -/
theorem isPermCall_not_dataAccess (e : Event)
    (h : isPermCallEvent e = true) : isDataAccessEvent e = false := by
  cases e <;> simp_all [isPermCallEvent, isDataAccessEvent]

/-- A failing credential resolution makes the gate fail with that error
before any service call. -/
theorem authorize_credentials_error (env : Env) (ps : List Permission)
    (e : Err) (hc : env.credentials = .error e) :
    authorize env ps = ⟨.error e, []⟩ := by
  unfold authorize
  simp [hc, bindM, liftE]

/-- The batch of independent candidate calls only emits permission call
events. -/
theorem mapML_permCall_trace_all (env : Env) (creds : Credentials) :
    ∀ qs : List Permission,
      (mapML (fun p => permCallM env [p] creds) qs).trace.all
        isPermCallEvent = true := by
  intro qs
  induction qs with
  | nil => rfl
  | cons q qs ih =>
    rcases hm : mapML (fun p => permCallM env [p] creds) qs with ⟨rr, rt⟩
    simp only [hm, mk_trace] at ih
    simp only [mapML, hm]
    cases hq : env.permAuthorize [q] creds with
    | error e =>
      simp [permCallM, hq, bindM, isPermCallEvent]
    | ok ds =>
      cases rr <;>
        simp [permCallM, hq, bindM, pureM, isPermCallEvent, ih]

/-- The gate only emits permission-service call events. -/
theorem authorize_trace_all_perm (env : Env) (ps : List Permission) :
    (authorize env ps).trace.all isPermCallEvent = true := by
  cases hc : env.credentials with
  | error e => rw [authorize_credentials_error env ps e hc]; rfl
  | ok creds =>
    unfold authorize
    simp only [bind_eq_bindM, hc, liftE, bindM_mk_ok, mk_res, mk_trace]
    rcases hm : mapML (fun p => permCallM env [p] creds) ps with ⟨rr, rt⟩
    have htr : rt.all isPermCallEvent = true := by
      have h2 := mapML_permCall_trace_all env creds ps
      rw [hm] at h2
      exact h2
    cases rr with
    | error e => simp [bindM, htr]
    | ok rs =>
      cases hf : findAllowJS (rs.map List.head?) with
      | error e => simp [bindM, hf, liftE, htr]
      | ok allow => cases allow <;> simp [bindM, hf, liftE, pureM, htr]

/-- With resolvable credentials, the gate trace on a nonempty candidate
list starts with the permission call for the first candidate. -/
theorem authorize_trace_head (env : Env) (creds : Credentials)
    (p : Permission) (ps : List Permission)
    (hc : env.credentials = .ok creds) :
    ∃ t, (authorize env (p :: ps)).trace = Event.permCall [p] :: t := by
  unfold authorize
  simp only [bind_eq_bindM, hc, liftE, bindM_mk_ok, mk_res, mk_trace]
  rcases hrest : mapML (fun r => permCallM env [r] creds) ps with ⟨rr, rt⟩
  simp only [mapML, hrest]
  cases hq : env.permAuthorize [p] creds with
  | error e =>
    exact ⟨[], by simp [permCallM, hq, bindM]⟩
  | ok ds =>
    cases rr with
    | error e =>
      exact ⟨rt, by simp [permCallM, hq, bindM, pureM]⟩
    | ok bs =>
      cases hf : findAllowJS (ds.head? :: bs.map List.head?) with
      | error e =>
        exact ⟨rt, by
          simp [permCallM, hq, bindM, pureM, liftE, hf]⟩
      | ok allow =>
        cases allow <;>
          exact ⟨rt, by
            simp [permCallM, hq, bindM, pureM, liftE, hf]⟩

/-- C4 (amended): responses and mutations are authorization-gated even
though instance resolution is not: `getInstanceById` and `abortWorkflow`
fetch the instance before evaluating any permission (to learn its owning
workflow id), but any 200 data response of `getInstanceById` and any
engine abort invocation of `abortWorkflow` occur only after a
permission-service evaluation; `getWorkflowSourceById` performs no data
access before its permission evaluation; and `getWorkflowStatuses`
performs no permission evaluation at all. -/
theorem authorization_gates_responses_and_mutations (env : Env) :
    (∀ instanceId includeAssessment,
      permPrecedes isRespond200Event false
        (getInstanceByIdHandler env instanceId includeAssessment).trace = true)
    ∧ (∀ instanceId,
      permPrecedes isAbortCallEvent false
        (abortWorkflowHandler env instanceId).trace = true)
    ∧ (∀ workflowId,
      permPrecedes isDataAccessEvent false
        (getWorkflowSourceByIdHandler env workflowId).trace = true)
    ∧ (getWorkflowStatusesHandler env).trace.any isPermCallEvent = false := by
  refine ⟨?_, ?_, ?_, ?_⟩
  · intro iid q
    unfold getInstanceByIdHandler
    cases hX : env.v2GetInstanceById iid (truthy q) with
    | error e =>
      simp [hX, logStart, auditLogRequestError, tryCatchM, bindM, pureM,
        permPrecedes, isRespond200Event, isPermCallEvent]
    | ok inst =>
      simp only [bind_eq_bindM, logStart, logM_def, callE_def, hX,
        bindM_mk_ok, mk_res, mk_trace]
      cases hc : env.credentials with
      | error ec =>
        rw [authorize_credentials_error env _ ec hc]
        simp [auditLogRequestError, tryCatchM, bindM, pureM, permPrecedes,
          isRespond200Event, isPermCallEvent]
      | ok creds =>
        obtain ⟨t, hat⟩ := authorize_trace_head env creds Permission.workflow
          [Permission.workflowSpecific inst.inst.processId] hc
        rcases hA : authorize env [Permission.workflow,
          Permission.workflowSpecific inst.inst.processId] with ⟨ar, atr⟩
        rw [hA] at hat
        simp only [mk_trace] at hat
        subst hat
        cases ar with
        | error e2 =>
          simp [auditLogRequestError, tryCatchM, bindM, pureM, permPrecedes,
            isRespond200Event, isPermCallEvent, permPrecedes_seen_true]
        | ok d =>
          cases hd : d.result == AuthorizeResult.DENY <;>
            simp [hd, manageDenyAuthorization, auditLogRequestError,
              tryCatchM, bindM, pureM, permPrecedes, isRespond200Event,
              isPermCallEvent, permPrecedes_seen_true]
  · intro iid
    unfold abortWorkflowHandler
    cases hX : env.v2GetInstanceById iid false with
    | error e =>
      simp [hX, logStart, auditLogRequestError, tryCatchM, bindM, pureM,
        permPrecedes, isAbortCallEvent, isPermCallEvent]
    | ok inst =>
      simp only [bind_eq_bindM, logStart, logM_def, callE_def, hX,
        bindM_mk_ok, mk_res, mk_trace]
      cases hc : env.credentials with
      | error ec =>
        rw [authorize_credentials_error env _ ec hc]
        simp [auditLogRequestError, tryCatchM, bindM, pureM, permPrecedes,
          isAbortCallEvent, isPermCallEvent]
      | ok creds =>
        obtain ⟨t, hat⟩ := authorize_trace_head env creds
          Permission.workflowUse
          [Permission.workflowUseSpecific inst.inst.processId] hc
        rcases hA : authorize env [Permission.workflowUse,
          Permission.workflowUseSpecific inst.inst.processId] with ⟨ar, atr⟩
        rw [hA] at hat
        simp only [mk_trace] at hat
        subst hat
        cases ar with
        | error e2 =>
          simp [auditLogRequestError, tryCatchM, bindM, pureM, permPrecedes,
            isAbortCallEvent, isPermCallEvent, permPrecedes_seen_true]
        | ok d =>
          cases hd : d.result == AuthorizeResult.DENY <;>
            cases hAb : env.v2AbortWorkflow inst.inst.processId iid <;>
              simp [hd, hAb, manageDenyAuthorization, auditLogRequestError,
                tryCatchM, bindM, pureM, permPrecedes, isAbortCallEvent,
                isPermCallEvent, permPrecedes_seen_true]
  · intro workflowId
    unfold getWorkflowSourceByIdHandler
    cases hc : env.credentials with
    | error ec =>
      rw [show authorize env [Permission.workflow,
          Permission.workflowSpecific workflowId] = ⟨.error ec, []⟩ from
        authorize_credentials_error env _ ec hc]
      simp [logStart, bindM, pureM, permPrecedes, isDataAccessEvent,
        isPermCallEvent]
    | ok creds =>
      obtain ⟨t, hat⟩ := authorize_trace_head env creds Permission.workflow
        [Permission.workflowSpecific workflowId] hc
      rcases hA : authorize env [Permission.workflow,
        Permission.workflowSpecific workflowId] with ⟨ar, atr⟩
      rw [hA] at hat
      simp only [mk_trace] at hat
      subst hat
      simp only [bind_eq_bindM, logStart, logM_def, bindM_mk_ok, mk_res,
        mk_trace, hA]
      cases ar with
      | error e2 =>
        simp [bindM, pureM, permPrecedes, isDataAccessEvent,
          isPermCallEvent, permPrecedes_seen_true]
      | ok d =>
        cases hd : d.result == AuthorizeResult.DENY <;>
          cases hs : env.v2GetWorkflowSourceById workflowId <;>
            simp [hd, hs, manageDenyAuthorization, auditLogRequestError,
              tryCatchM, bindM, pureM, permPrecedes, isDataAccessEvent,
              isPermCallEvent, permPrecedes_seen_true]
  · unfold getWorkflowStatusesHandler
    cases hS : env.v2GetWorkflowStatuses with
    | error e =>
      simp [hS, logStart, auditLogRequestError, tryCatchM, bindM, pureM,
        isPermCallEvent]
    | ok sts =>
      simp [hS, logStart, auditLogRequestError, tryCatchM, bindM, pureM,
        isPermCallEvent]

/-- C4 counterexample: at a concrete environment, `getWorkflowStatuses`
accesses workflow data with no prior (indeed no) permission evaluation,
and `getInstanceById` performs its instance fetch before the first
permission evaluation — refuting the claim that for every dispatched
request authorization is evaluated before any workflow data access. -/
theorem authorization_before_data_cex :
    permPrecedes isDataAccessEvent false
        (getWorkflowStatusesHandler (baseEnv grantAll)).trace = false
    ∧ permPrecedes isDataAccessEvent false
        (getInstanceByIdHandler (baseEnv grantAll) "i1" none).trace = false := by
  exact ⟨rfl, rfl⟩

/-- Permission-call traces contain no audit events of any stage. -/
theorem auditStageCount_all_perm (stage : String) :
    ∀ t : Trace, t.all isPermCallEvent = true → auditStageCount stage t = 0 := by
  intro t
  induction t with
  | nil => intro _; rfl
  | cons e rest ih =>
    intro h
    simp only [List.all_cons, Bool.and_eq_true] at h
    cases e <;> simp_all [auditStageCount, List.countP_cons, isAuditStage,
      isPermCallEvent]

/-- Permission-call traces contain no 200 responses. -/
theorem any_respond200_all_perm :
    ∀ t : Trace, t.all isPermCallEvent = true →
      t.any isRespond200Event = false := by
  intro t
  induction t with
  | nil => intro _; rfl
  | cons e rest ih =>
    intro h
    simp only [List.all_cons, Bool.and_eq_true] at h
    cases e <;> simp_all [isRespond200Event, isPermCallEvent]

/-- Permission-call traces contain no audit events at all. -/
theorem isAuditStage_false_of_perm (s : String) (atr : Trace)
    (hall : atr.all isPermCallEvent = true) :
    ∀ a ∈ atr, isAuditStage s a = false := by
  intro a ha
  have hp := (List.all_eq_true.mp hall) a ha
  cases a <;> simp_all [isPermCallEvent]

/-- C5 counterexample: a successful dispatch of `getWorkflowSourceById`
at a concrete environment emits its one start audit event but no terminal
completion event at all, refuting the claim that every dispatched
operation emits exactly one terminal `succeeded`/`failed` event. -/
theorem audit_completion_missing_on_success_cex :
    auditStageCount "start"
        (handleRequestCatch
          (getWorkflowSourceByIdHandler (baseEnv grantAll) "wf1")).trace = 1
    ∧ auditStageCount "completion"
        (handleRequestCatch
          (getWorkflowSourceByIdHandler (baseEnv grantAll) "wf1")).trace = 0
    ∧ ¬auditStageCount "completion"
        (handleRequestCatch
          (getWorkflowSourceByIdHandler (baseEnv grantAll) "wf1")).trace = 1 := by
  refine ⟨rfl, rfl, by decide⟩

/-- C5 (amended): every dispatch of `getWorkflowSourceById` (through the
router-level catch) emits exactly one start audit event, which comes first
in the trace; a terminal completion event is emitted exactly once on every
exit path that does not produce a 200 response (handler error, thrown
authorization denial, service failure), while the successful exit path
emits no completion event at all. -/
theorem audit_bracketing_getWorkflowSourceById (env : Env)
    (workflowId : String) :
    auditStageCount "start"
        (handleRequestCatch
          (getWorkflowSourceByIdHandler env workflowId)).trace = 1
    ∧ (handleRequestCatch
          (getWorkflowSourceByIdHandler env workflowId)).trace.head? =
        some (Event.audit (startAudit "getWorkflowSourceById"
          ("/v2/workflows/" ++ workflowId ++ "/source")))
    ∧ auditStageCount "completion"
        (handleRequestCatch
          (getWorkflowSourceByIdHandler env workflowId)).trace =
      (if (handleRequestCatch
            (getWorkflowSourceByIdHandler env workflowId)).trace.any
          isRespond200Event then 0 else 1) := by
  unfold handleRequestCatch getWorkflowSourceByIdHandler
  cases hc : env.credentials with
  | error ec =>
    rw [show authorize env [Permission.workflow,
        Permission.workflowSpecific workflowId] = ⟨.error ec, []⟩ from
      authorize_credentials_error env _ ec hc]
    simp [logStart, bindM, pureM, tryCatchM, auditStageCount,
      List.countP_cons, startAudit, genericErrorAudit]
  | ok creds =>
    rcases hA : authorize env [Permission.workflow,
      Permission.workflowSpecific workflowId] with ⟨ar, atr⟩
    have hall : atr.all isPermCallEvent = true := by
      have h2 := authorize_trace_all_perm env [Permission.workflow,
        Permission.workflowSpecific workflowId]
      rw [hA] at h2
      exact h2
    have hcount : ∀ stage, auditStageCount stage atr = 0 :=
      fun stage => auditStageCount_all_perm stage atr hall
    have hany : atr.any isRespond200Event = false :=
      any_respond200_all_perm atr hall
    cases ar with
    | error e2 =>
      simp [logStart, bindM, pureM, tryCatchM, auditStageCount,
        List.countP_append, List.countP_cons, startAudit,
        genericErrorAudit, hany, hcount]
      exact ⟨isAuditStage_false_of_perm _ atr hall,
        isAuditStage_false_of_perm _ atr hall⟩
    | ok d =>
      cases hd : d.result with
      | DENY =>
        simp [hd, logStart, manageDenyAuthorization, bindM, pureM,
          tryCatchM, auditStageCount, List.countP_append, List.countP_cons,
          startAudit, denyAudit, genericErrorAudit, hany, hcount]
        exact ⟨isAuditStage_false_of_perm _ atr hall,
          isAuditStage_false_of_perm _ atr hall⟩
      | ALLOW =>
        cases hs : env.v2GetWorkflowSourceById workflowId with
        | error e3 =>
          simp [hd, hs, logStart, auditLogRequestError, bindM, pureM,
            tryCatchM, auditStageCount, List.countP_append,
            List.countP_cons, startAudit, requestErrorAudit, hany, hcount]
          exact ⟨isAuditStage_false_of_perm _ atr hall,
            isAuditStage_false_of_perm _ atr hall⟩
        | ok src =>
          simp [hd, hs, logStart, bindM, pureM, tryCatchM, auditStageCount,
            List.countP_append, List.countP_cons, startAudit, hany, hcount]
          exact ⟨isAuditStage_false_of_perm _ atr hall,
            isAuditStage_false_of_perm _ atr hall⟩

end Orchestrator
